import Mathlib

/-!
Shallow embedding of the DWG→PDF title-block extraction core (gmclove/DWG-PDF-exp):
the COM resilient-call layer (`com_retry_call` in src/main.py / src/dwgtool/cad/plotter.py)
and the title-block scanner (`read_titleblock_from_active_layout_robust`,
`analyze_block`, `consider_entity` in src/titleblock/scanner.py).

Modelling conventions:
- A COM operation is a thunk whose outcome may depend on how often it has been
  attempted, so it is embedded as `Nat → Except ComError α` (attempt index ↦ outcome).
- COM entities are presented as already-read `Candidate` records: the source's
  per-property `try/except` plumbing (`collect_attrs`, name/IsXRef reads) always
  reduces an entity to exactly these fields, with failures mapped to defaults.
- Python dicts keyed by strings or ints become total functions or association
  lists in insertion order; Python's falsy `or` defaults become explicit `if`s.
- Attribute normalisation (`_norm_tag`) is over ASCII, which is exact on its
  reachable inputs (the regex strips everything outside A-Z0-9).
-/

namespace DwgPdf

/-! ### Resilient call layer (src/main.py lines 101-140) -/

/-- A COM failure carries an HRESULT code (the effective value the source
extracts from `e.hresult` / `e.args[0]`). -/
structure ComError where
  hresult : Int
deriving DecidableEq, Repr

/-- "Call was rejected by callee." -/
def RPC_E_CALL_REJECTED : Int := -2147418111

/-- The busy classification applied by `com_retry_call`. -/
def isBusy (e : ComError) : Bool := e.hresult == RPC_E_CALL_REJECTED

/-- Core loop of `com_retry_call`: `k` is the index of the next attempt, the
`Nat` fuel is the number of loop iterations left, `lastExc` mirrors `last_exc`.
Returns (result, attempts made, sleeps performed).  A `.ok none` result models
Python falling off the loop with `retries = 0` and returning `None`. -/
def comRetryAux {α : Type} (op : Nat → Except ComError α) (k : Nat) :
    Nat → Option ComError → Except ComError (Option α) × Nat × Nat
  | 0, lastExc =>
    (match lastExc with
     | some e => Except.error e
     | none => Except.ok none, 0, 0)
  | n + 1, _ =>
    match op k with
    | Except.ok v => (Except.ok (some v), 1, 0)
    | Except.error e =>
      if isBusy e then
        let r := comRetryAux op (k + 1) n (some e)
        (r.1, r.2.1 + 1, r.2.2 + 1)
      else (Except.error e, 1, 0)

/-- `com_retry_call(func, retries=...)`: result component. -/
def com_retry_call {α : Type} (op : Nat → Except ComError α) (retries : Nat) :
    Except ComError (Option α) :=
  (comRetryAux op 0 retries none).1

/-- Number of times the wrapped operation is attempted. -/
def com_retry_attempts {α : Type} (op : Nat → Except ComError α) (retries : Nat) : Nat :=
  (comRetryAux op 0 retries none).2.1

/-- Number of backoff steps (`PumpWaitingMessages` + `time.sleep`) performed. -/
def com_retry_sleeps {α : Type} (op : Nat → Except ComError α) (retries : Nat) : Nat :=
  (comRetryAux op 0 retries none).2.2

/-! ### Attribute normaliser (src/titleblock/scanner.py lines 5-12) -/

/-- Characters kept by the `[^A-Z0-9]` strip. -/
def isUpperAlnum (c : Char) : Bool :=
  (decide ('A' ≤ c) && decide (c ≤ 'Z')) || (decide ('0' ≤ c) && decide (c ≤ '9'))

/-- `_norm_tag`: uppercase, then drop every character outside A-Z0-9
(character-wise over the string's data, exact on ASCII input). -/
def norm_tag (s : String) : String :=
  String.mk ((s.data.map Char.toUpper).filter isUpperAlnum)

/-- `_norm_prompt` (identical to `_norm_tag`). -/
def norm_prompt (s : String) : String := norm_tag s

/-- `.strip()` on the character list. -/
def stripChars (l : List Char) : List Char :=
  ((l.dropWhile Char.isWhitespace).reverse.dropWhile Char.isWhitespace).reverse

/-- `_norm_name`: uppercase and trim surrounding whitespace. -/
def norm_name (s : String) : String :=
  String.mk (stripChars (s.data.map Char.toUpper))

/-! ### Data model -/

/-- One attribute as produced by `collect_attrs`. -/
structure Attr where
  raw_tag : String
  norm_tag : String
  raw_prompt : String
  norm_prompt : String
  value : String
deriving DecidableEq, Repr

/-- Build an attribute the way `collect_attrs` does from raw strings
(the value arrives already `.strip()`ped). -/
def mkAttr (t p v : String) : Attr :=
  { raw_tag := t, norm_tag := norm_tag t,
    raw_prompt := p, norm_prompt := norm_prompt p, value := v }

/-- One candidate block entity on the active layout, after the COM reads that
`consider_entity` performs (failed reads already defaulted as in the source). -/
structure Candidate where
  blkname : String
  isXref : Bool
  attrs : List Attr
deriving DecidableEq, Repr

/-- Raw configuration dict (`cfg`), before the falsy-`or` defaults of
scanner.py lines 29-39 are applied.  A `[]`/`""` field plays Python's falsy role. -/
structure MatchConfig where
  target_block_names : List String
  sheet_top_tags : List String
  sheet_top_prompts : List String
  sheet_bottom_tags : List String
  sheet_bottom_prompts : List String
  title_tag_primary : List String
  title_prompt_primary : List String
  title_prompt_alias : List String
  revision_index_range : List Nat
  sheetno_separator : String
  title_joiner : String
deriving DecidableEq, Repr

/-- The normalised configuration: the local variables computed in
scanner.py lines 29-48, defaults included. -/
structure NormCfg where
  tb_names : Option (List String)
  sheet_top_tag_norm : List String
  sheet_top_prompt_norm : List String
  sheet_bot_tag_norm : List String
  sheet_bot_prompt_norm : List String
  title_tag_norm_order : List String
  title_prompt_norm_order : List String
  title_prompt_alias_norm : List String
  revision_index_range : List Nat
  sheetno_sep : String
  title_joiner : String

/-- scanner.py lines 29-48: apply the falsy-`or` defaults and normalise. -/
def normalizeCfg (cfg : MatchConfig) : NormCfg :=
  { tb_names :=
      if cfg.target_block_names = [] then none
      else some (cfg.target_block_names.map norm_name),
    sheet_top_tag_norm := cfg.sheet_top_tags.map norm_tag,
    sheet_top_prompt_norm := cfg.sheet_top_prompts.map norm_prompt,
    sheet_bot_tag_norm := cfg.sheet_bottom_tags.map norm_tag,
    sheet_bot_prompt_norm := cfg.sheet_bottom_prompts.map norm_prompt,
    title_tag_norm_order := cfg.title_tag_primary.map norm_tag,
    title_prompt_norm_order := cfg.title_prompt_primary.map norm_prompt,
    title_prompt_alias_norm := cfg.title_prompt_alias.map norm_prompt,
    revision_index_range :=
      if cfg.revision_index_range = [] then List.range 10 else cfg.revision_index_range,
    sheetno_sep := if cfg.sheetno_separator = "" then "-" else cfg.sheetno_separator,
    title_joiner := if cfg.title_joiner = "" then " " else cfg.title_joiner }

/-! ### Scoring engine: `analyze_block` (scanner.py lines 94-145) -/

/-- State threaded through the first (sheet number + titles) pass.
The `titles` dict is modelled as a total function that is `""` off its keys. -/
structure Pass1State where
  score : Int
  top : String
  bot : String
  titles : String → String

/-- Point update of the titles dict. -/
def setKey (f : String → String) (k v : String) : String → String :=
  fun s => if s = k then v else f s

/-- `list.index` for the guarded `title_prompt_norm_order.index(np)` call. -/
def indexOfStr : List String → String → Nat
  | [], _ => 0
  | y :: ys, x => if y = x then 0 else indexOfStr ys x + 1

/-- The initial `analyze_block` state: score 0, everything empty. -/
def initPass1 : Pass1State :=
  { score := 0, top := "", bot := "", titles := fun _ => "" }

/-- One iteration of the first loop of `analyze_block` (scanner.py lines 102-118). -/
def pass1Step (cfg : NormCfg) (st : Pass1State) (a : Attr) : Pass1State :=
  if a.value = "" then st
  else if (a.norm_tag ∈ cfg.sheet_top_tag_norm ∨ a.norm_prompt ∈ cfg.sheet_top_prompt_norm)
      ∧ st.top = "" then
    { st with top := a.value, score := st.score + 3 }
  else if (a.norm_tag ∈ cfg.sheet_bot_tag_norm ∨ a.norm_prompt ∈ cfg.sheet_bot_prompt_norm)
      ∧ st.bot = "" then
    { st with bot := a.value, score := st.score + 3 }
  else if a.norm_tag ∈ cfg.title_tag_norm_order ∧ st.titles a.norm_tag = "" then
    { st with titles := setKey st.titles a.norm_tag a.value, score := st.score + 1 }
  else if a.norm_prompt ∈ cfg.title_prompt_norm_order then
    if st.titles (cfg.title_tag_norm_order.getD
        (indexOfStr cfg.title_prompt_norm_order a.norm_prompt) "") = "" then
      { st with
        titles := setKey st.titles
          (cfg.title_tag_norm_order.getD
            (indexOfStr cfg.title_prompt_norm_order a.norm_prompt) "") a.value,
        score := st.score + 1 }
    else st
  else st

/-- The first loop of `analyze_block`, in input order. -/
def pass1 (cfg : NormCfg) (attrs : List Attr) (st : Pass1State) : Pass1State :=
  attrs.foldl (pass1Step cfg) st

/-- The condition under which the alias loop accepts an attribute
(scanner.py lines 125-127). -/
def aliasMatch (cfg : NormCfg) (a : Attr) : Bool :=
  !(a.value == "")
    && (decide (a.norm_prompt ∈ cfg.title_prompt_alias_norm)
        || a.norm_tag == norm_tag "ELECTRICAL")

/-- The second ("Alias to TITLE_1") pass of `analyze_block`
(scanner.py lines 120-128). -/
def aliasPass (cfg : NormCfg) (st : Pass1State) (attrs : List Attr) : Pass1State :=
  match cfg.title_tag_norm_order with
  | [] => st
  | t1 :: _ =>
    if st.titles t1 = "" then
      match attrs.find? (aliasMatch cfg) with
      | some a => { st with titles := setKey st.titles t1 a.value, score := st.score + 1 }
      | none => st
    else st

/-- The four revision sub-fields of one revision generation. -/
inductive RevKind where
  | NO
  | DATE
  | DESC
  | BY
deriving DecidableEq, Repr

/-- The literal sub-field name, as it appears inside the tag. -/
def kindStr : RevKind → String
  | RevKind.NO => "NO"
  | RevKind.DATE => "DATE"
  | RevKind.DESC => "DESC"
  | RevKind.BY => "BY"

/-- One `revs[idx]` entry; every field defaults to `""`. -/
structure RevEntry where
  NO : String
  DATE : String
  DESC : String
  BY : String
deriving DecidableEq, Repr

def emptyRevEntry : RevEntry := { NO := "", DATE := "", DESC := "", BY := "" }

def setRevField (e : RevEntry) (k : RevKind) (v : String) : RevEntry :=
  match k with
  | RevKind.NO => { e with NO := v }
  | RevKind.DATE => { e with DATE := v }
  | RevKind.DESC => { e with DESC := v }
  | RevKind.BY => { e with BY := v }

def getRevField (e : RevEntry) : RevKind → String
  | RevKind.NO => e.NO
  | RevKind.DATE => e.DATE
  | RevKind.DESC => e.DESC
  | RevKind.BY => e.BY

/-- `re.match(r'^R(\d+)(NO|DATE|DESC|BY)$', tag)`: on the reachable (ASCII
alphanumeric) tags this is exactly one leading `R`, a maximal nonempty digit
run, then one of the four sub-field names ending the string. -/
def parseRevTag (s : String) : Option (Nat × RevKind) :=
  match s.data with
  | 'R' :: rest =>
    let ds := rest.takeWhile Char.isDigit
    let tail := rest.dropWhile Char.isDigit
    if ds = [] then none
    else
      let idx := ds.foldl (fun n c => n * 10 + (c.toNat - 48)) 0
      if tail = ['N', 'O'] then some (idx, RevKind.NO)
      else if tail = ['D', 'A', 'T', 'E'] then some (idx, RevKind.DATE)
      else if tail = ['D', 'E', 'S', 'C'] then some (idx, RevKind.DESC)
      else if tail = ['B', 'Y'] then some (idx, RevKind.BY)
      else none
  | _ => none

/-- `revs[idx] = {...}` creation plus `revs[idx][kind] = val`
(scanner.py lines 140-142), on the insertion-ordered dict. -/
def revSetIn (revs : List (Nat × RevEntry)) (idx : Nat) (kind : RevKind) (v : String) :
    List (Nat × RevEntry) :=
  if revs.any (fun p => p.1 == idx) then
    revs.map (fun p => if p.1 = idx then (p.1, setRevField p.2 kind v) else p)
  else revs ++ [(idx, setRevField emptyRevEntry kind v)]

/-- One iteration of the revision loop of `analyze_block`
(scanner.py lines 131-143); the state is (score, revs). -/
def revStep (cfg : NormCfg) (st : Int × List (Nat × RevEntry)) (a : Attr) :
    Int × List (Nat × RevEntry) :=
  if a.value = "" then st
  else
    match parseRevTag a.norm_tag with
    | some (idx, kind) =>
      if idx ∈ cfg.revision_index_range then (st.1 + 1, revSetIn st.2 idx kind a.value)
      else st
    | none => st

/-- Does the revision loop accept this attribute (for any index/kind)? -/
def revMatches (cfg : NormCfg) (a : Attr) : Bool :=
  !(a.value == "")
    && (match parseRevTag a.norm_tag with
        | some (idx, _) => decide (idx ∈ cfg.revision_index_range)
        | none => false)

/-- Does the revision loop write sub-field `kind` of index `idx` from `a`? -/
def revWritesAt (cfg : NormCfg) (idx : Nat) (kind : RevKind) (a : Attr) : Bool :=
  !(a.value == "")
    && (parseRevTag a.norm_tag == some (idx, kind))
    && decide (idx ∈ cfg.revision_index_range)

/-- Result record of `analyze_block`. -/
structure BlockScore where
  score : Int
  top : String
  bot : String
  titles : String → String
  revs : List (Nat × RevEntry)

/-- `analyze_block(attrs)` (scanner.py lines 94-145): sheet-number/title pass,
alias pass, revision pass. -/
def analyze_block (cfg : NormCfg) (attrs : List Attr) : BlockScore :=
  let st1 := pass1 cfg attrs initPass1
  let st2 := aliasPass cfg st1 attrs
  let r := attrs.foldl (revStep cfg) (st2.score, [])
  { score := r.1, top := st2.top, bot := st2.bot, titles := st2.titles, revs := r.2 }

/-! ### Block selector: `consider_entity` (scanner.py lines 147-188) -/

/-- The mutable `best` dict. -/
structure Best where
  score : Int
  attrs : List Attr
  top : String
  bot : String
  titles : String → String
  revs : List (Nat × RevEntry)
  attrs_count : Nat
  blkname : String

/-- Initial `best` (scanner.py lines 147-151): score -1 is "no candidate yet". -/
def initBest : Best :=
  { score := -1, attrs := [], top := "", bot := "",
    titles := fun _ => "", revs := [], attrs_count := 0, blkname := "" }

/-- The fast-path name filter (scanner.py line 169): rejects only when an
allow-list is present and the normalised name is not in it. -/
def nameFilterReject (cfg : NormCfg) (blkname : String) : Bool :=
  match cfg.tb_names with
  | some ns => decide (norm_name blkname ∉ ns)
  | none => false

/-- The `best` record a winning entity is replaced with. -/
def bestOfEnt (cfg : NormCfg) (ent : Candidate) : Best :=
  { score := (analyze_block cfg ent.attrs).score, attrs := ent.attrs,
    top := (analyze_block cfg ent.attrs).top, bot := (analyze_block cfg ent.attrs).bot,
    titles := (analyze_block cfg ent.attrs).titles,
    revs := (analyze_block cfg ent.attrs).revs,
    attrs_count := ent.attrs.length, blkname := ent.blkname }

/-- `consider_entity` (scanner.py lines 153-181). -/
def consider_entity (cfg : NormCfg) (best : Best) (ent : Candidate) : Best :=
  if ent.isXref then best
  else if nameFilterReject cfg ent.blkname then best
  else if ent.attrs = [] then best
  else if (analyze_block cfg ent.attrs).score > best.score
      ∨ ((analyze_block cfg ent.attrs).score = best.score
          ∧ ent.attrs.length > best.attrs_count) then
    bestOfEnt cfg ent
  else best

/-- The PaperSpace enumeration loop (scanner.py lines 183-188). -/
def selectBest (cfg : NormCfg) (cands : List Candidate) : Best :=
  cands.foldl (consider_entity cfg) initBest

/-! ### Output composition (scanner.py lines 190-232) -/

/-- `s or 'Not Found'`. -/
def orNotFound (s : String) : String := if s = "" then "Not Found" else s

/-- Sheet number composition (scanner.py lines 194-199). -/
def composeSheetNo (cfg : NormCfg) (top bot : String) : String :=
  if top ≠ "" ∧ bot ≠ "" then top ++ cfg.sheetno_sep ++ bot
  else if top ≠ "" then top
  else if bot ≠ "" then bot
  else "Not Found"

/-- Sheet title composition (scanner.py lines 201-203): non-empty slot values
in configured slot order, joined with the title joiner. -/
def composeTitle (cfg : NormCfg) (titles : String → String) : String :=
  let vals := (cfg.title_tag_norm_order.filter (fun t => titles t ≠ "")).map titles
  if vals = [] then "Not Found" else String.intercalate cfg.title_joiner vals

/-- `max` over a list of naturals, `None` on empty (Python `max(..., default=None)`). -/
def maxNatList : List Nat → Option Nat
  | [] => none
  | x :: xs =>
    match maxNatList xs with
    | none => some x
    | some m => some (max x m)

/-- `max((idx for idx, d in revs.items() if d.get('NO')), default=None)`. -/
def maxRevIdx (revs : List (Nat × RevEntry)) : Option Nat :=
  maxNatList ((revs.filter (fun p => p.2.NO != "")).map Prod.fst)

/-- Revision field composition (scanner.py lines 205-212). -/
def composeRevs (revs : List (Nat × RevEntry)) : String × String × String × String :=
  if revs = [] then ("Not Found", "Not Found", "Not Found", "Not Found")
  else
    match maxRevIdx revs with
    | none => ("Not Found", "Not Found", "Not Found", "Not Found")
    | some m =>
      match revs.find? (fun p => p.1 == m) with
      | some p =>
        (orNotFound p.2.NO, orNotFound p.2.DATE, orNotFound p.2.DESC, orNotFound p.2.BY)
      | none => ("Not Found", "Not Found", "Not Found", "Not Found")

/-- `norm_tag(f'R{idx}{kind}')` for the consumed-tag sweep (scanner.py line 221). -/
def revTagStr (idx : Nat) (k : RevKind) : String :=
  norm_tag ("R" ++ toString idx ++ kindStr k)

/-- `used_norm_tags` (scanner.py lines 215-221). -/
def usedNormTags (cfg : NormCfg) : List String :=
  cfg.sheet_top_tag_norm ++ cfg.sheet_bot_tag_norm ++ cfg.title_tag_norm_order ++
    (cfg.revision_index_range.map (fun idx =>
      [revTagStr idx RevKind.NO, revTagStr idx RevKind.DATE,
       revTagStr idx RevKind.DESC, revTagStr idx RevKind.BY])).flatten

/-- `used_norm_prompts` (scanner.py lines 216-218). -/
def usedNormPrompts (cfg : NormCfg) : List String :=
  cfg.sheet_top_prompt_norm ++ cfg.sheet_bot_prompt_norm ++
    cfg.title_prompt_norm_order ++ cfg.title_prompt_alias_norm

/-- `key = a['raw_tag'] or a['raw_prompt'] or 'ATTR'` (scanner.py line 228). -/
def otherKey (a : Attr) : String :=
  if a.raw_tag ≠ "" then a.raw_tag
  else if a.raw_prompt ≠ "" then a.raw_prompt
  else "ATTR"

/-- One iteration of the other-attributes loop (scanner.py lines 223-230). -/
def otherStep (tags prompts : List String) (st : List (String × String)) (a : Attr) :
    List (String × String) :=
  if a.value = "" then st
  else if a.norm_tag ∈ tags ∨ a.norm_prompt ∈ prompts then st
  else if (st.find? (fun p => p.1 == otherKey a)).isSome then st
  else st ++ [(otherKey a, a.value)]

/-- The full other-attributes walk over the winning candidate's attributes. -/
def buildOther (cfg : NormCfg) (attrs : List Attr) : List (String × String) :=
  attrs.foldl (otherStep (usedNormTags cfg) (usedNormPrompts cfg)) []

/-- The seven-value result of one scan. -/
structure ExtractionResult where
  sheet_no : String
  sheet_title : String
  rev_no : String
  rev_date : String
  rev_desc : String
  rev_by : String
  other_attrs : List (String × String)
deriving DecidableEq, Repr

/-- The all-sentinel result (scanner.py lines 50-56 defaults, returned
unchanged when no candidate scored ≥ 0). -/
def notFoundResult : ExtractionResult :=
  { sheet_no := "Not Found", sheet_title := "Not Found",
    rev_no := "Not Found", rev_date := "Not Found",
    rev_desc := "Not Found", rev_by := "Not Found", other_attrs := [] }

/-- The scan over an already-enumerated candidate list with a normalised
configuration (scanner.py lines 147-232). -/
def scan_layout (cfg : NormCfg) (cands : List Candidate) : ExtractionResult :=
  let best := selectBest cfg cands
  if best.score < 0 then notFoundResult
  else
    let revq := composeRevs best.revs
    { sheet_no := composeSheetNo cfg best.top best.bot,
      sheet_title := composeTitle cfg best.titles,
      rev_no := revq.1, rev_date := revq.2.1,
      rev_desc := revq.2.2.1, rev_by := revq.2.2.2,
      other_attrs := buildOther cfg best.attrs }

/-- `read_titleblock_from_active_layout_robust` on a raw configuration. -/
def read_titleblock_from_active_layout_robust
    (cfg : MatchConfig) (cands : List Candidate) : ExtractionResult :=
  scan_layout (normalizeCfg cfg) cands


/-! ### Example inputs and derived predicates used by the verification -/

def busyOp : Nat → Except ComError Nat :=
  fun i => if i < 2 then Except.error ⟨RPC_E_CALL_REJECTED⟩ else Except.ok 7

def cfgA : NormCfg :=
  { tb_names := none,
    sheet_top_tag_norm := ["SHTOP"],
    sheet_top_prompt_norm := ["SHEETTOP"],
    sheet_bot_tag_norm := ["SHBOT"],
    sheet_bot_prompt_norm := ["SHEETBOT"],
    title_tag_norm_order := ["TITLE1", "TITLE2"],
    title_prompt_norm_order := ["PTITLE1", "PTITLE2"],
    title_prompt_alias_norm := ["ALIAS1"],
    revision_index_range := [0,1,2,3,4,5,6,7,8,9],
    sheetno_sep := "-",
    title_joiner := " " }

/-- An attribute that can only match a configured title slot by tag: non-empty
value, tag among the configured slot tags, and no overlap with the sheet
number sets, the positional prompt list, or either alias. -/
def TitleOnly (cfg : NormCfg) (a : Attr) : Prop :=
  a.value ≠ "" ∧ a.norm_tag ∈ cfg.title_tag_norm_order ∧
  a.norm_tag ∉ cfg.sheet_top_tag_norm ∧ a.norm_tag ∉ cfg.sheet_bot_tag_norm ∧
  a.norm_prompt ∉ cfg.sheet_top_prompt_norm ∧ a.norm_prompt ∉ cfg.sheet_bot_prompt_norm ∧
  a.norm_prompt ∉ cfg.title_prompt_norm_order ∧
  a.norm_prompt ∉ cfg.title_prompt_alias_norm ∧ a.norm_tag ≠ norm_tag "ELECTRICAL"

instance (cfg : NormCfg) (a : Attr) : Decidable (TitleOnly cfg a) := by
  unfold TitleOnly
  exact inferInstance

/-- Dict lookup of one revision sub-field: `revs[idx][kind]` when present. -/
def revKindLookup (revs : List (Nat × RevEntry)) (idx : Nat) (k : RevKind) : Option String :=
  (revs.find? (fun p => p.1 == idx)).map (fun p => getRevField p.2 k)

def cfgM : MatchConfig :=
  { target_block_names := [],
    sheet_top_tags := ["SHTOP"],
    sheet_top_prompts := ["SHEETTOP"],
    sheet_bottom_tags := ["SHBOT"],
    sheet_bottom_prompts := ["SHEETBOT"],
    title_tag_primary := ["TITLE_1", "TITLE_2"],
    title_prompt_primary := ["PTITLE1", "PTITLE2"],
    title_prompt_alias := ["ALIAS1"],
    revision_index_range := [0,1,2,3,4,5,6,7,8,9],
    sheetno_separator := "-",
    title_joiner := " " }

def candTop : Candidate :=
  ⟨"TB", false, [mkAttr "SHTOP" "" "FA", mkAttr "SHBOT" "" "205"]⟩

/-! ### Verification of the specification claims -/

lemma comRetryAux_success {α : Type} (op : Nat → Except ComError α) (v : α)
    (j : Nat) : ∀ (n k : Nat) (lastExc : Option ComError), j < n →
    (∀ i, k ≤ i → i < k + j → ∃ e, op i = Except.error e ∧ isBusy e = true) →
    op (k + j) = Except.ok v →
    comRetryAux op k n lastExc = (Except.ok (some v), j + 1, j) := by
  induction j with
  | zero =>
    intro n k lastExc hj hbusy hok
    obtain ⟨m, rfl⟩ : ∃ m, n = m + 1 := ⟨n - 1, by omega⟩
    rw [Nat.add_zero] at hok
    simp [comRetryAux, hok]
  | succ j ih =>
    intro n k lastExc hj hbusy hok
    obtain ⟨m, rfl⟩ : ∃ m, n = m + 1 := ⟨n - 1, by omega⟩
    obtain ⟨e, he, hb⟩ := hbusy k (Nat.le_refl k) (by omega)
    have hr := ih m (k + 1) (some e) (by omega)
      (fun i h1 h2 => hbusy i (by omega) (by omega))
      (by rw [show k + 1 + j = k + (j + 1) by omega]; exact hok)
    simp [comRetryAux, he, hb, hr]

lemma comRetryAux_allbusy {α : Type} (op : Nat → Except ComError α) (elast : ComError)
    (n : Nat) : ∀ (k : Nat) (lastExc : Option ComError), 0 < n →
    (∀ i, k ≤ i → i < k + n → ∃ e, op i = Except.error e ∧ isBusy e = true) →
    op (k + n - 1) = Except.error elast →
    comRetryAux op k n lastExc = (Except.error elast, n, n) := by
  induction n with
  | zero => intro k lastExc h; omega
  | succ n ih =>
    intro k lastExc _ hbusy hlast
    obtain ⟨e, he, hb⟩ := hbusy k (Nat.le_refl k) (by omega)
    rcases Nat.eq_zero_or_pos n with h0 | hpos
    · subst h0
      have hke : op k = Except.error elast := by simpa using hlast
      obtain rfl : e = elast := by injection (he.symm.trans hke)
      simp [comRetryAux, he, hb]
    · have hr := ih (k + 1) (some e) hpos
        (fun i h1 h2 => hbusy i (by omega) (by omega))
        (by rw [show k + 1 + n - 1 = k + (n + 1) - 1 by omega]; exact hlast)
      simp [comRetryAux, he, hb, hr]

/-- C1: `com_retry_call` returns the success value after `k < retries` busy
failures with `k + 1` attempts and `k` backoff sleeps; raises the last busy
failure after exactly `retries` attempts when every attempt is busy; and
raises a non-busy failure on the very first attempt with zero backoff. -/
theorem c1_com_retry_spec {α : Type} (retries : Nat) :
    (∀ (op : Nat → Except ComError α) (k : Nat) (v : α),
        k < retries →
        (∀ i, i < k → ∃ e, op i = Except.error e ∧ isBusy e = true) →
        op k = Except.ok v →
        com_retry_call op retries = Except.ok (some v) ∧
        com_retry_attempts op retries = k + 1 ∧
        com_retry_sleeps op retries = k)
    ∧ (∀ (op : Nat → Except ComError α) (elast : ComError),
        0 < retries →
        (∀ i, i < retries → ∃ e, op i = Except.error e ∧ isBusy e = true) →
        op (retries - 1) = Except.error elast →
        com_retry_call op retries = Except.error elast ∧
        com_retry_attempts op retries = retries ∧
        com_retry_sleeps op retries = retries)
    ∧ (∀ (op : Nat → Except ComError α) (e : ComError),
        0 < retries →
        op 0 = Except.error e →
        isBusy e = false →
        com_retry_call op retries = Except.error e ∧
        com_retry_attempts op retries = 1 ∧
        com_retry_sleeps op retries = 0) := by
  refine ⟨?_, ?_, ?_⟩
  · intro op k v hk hbusy hok
    have h := comRetryAux_success op v k retries 0 none hk
      (fun i _ h2 => hbusy i (by omega)) (by simpa using hok)
    exact ⟨by simp [com_retry_call, h], by simp [com_retry_attempts, h],
      by simp [com_retry_sleeps, h]⟩
  · intro op elast hpos hbusy hlast
    have h := comRetryAux_allbusy op elast retries 0 none hpos
      (fun i _ h2 => hbusy i (by omega)) (by simpa using hlast)
    exact ⟨by simp [com_retry_call, h], by simp [com_retry_attempts, h],
      by simp [com_retry_sleeps, h]⟩
  · intro op e hpos h0 hnb
    obtain ⟨m, rfl⟩ : ∃ m, retries = m + 1 := ⟨retries - 1, by omega⟩
    refine ⟨?_, ?_, ?_⟩ <;>
      simp [com_retry_call, com_retry_attempts, com_retry_sleeps, comRetryAux, h0, hnb]

/-- C1 witness: an operation busy twice then succeeding with 7, under
`retries = 50`, returns 7 after 3 attempts and 2 sleeps. -/
theorem c1_com_retry_witness :
    ((2 : Nat) < 50 ∧ busyOp 2 = Except.ok 7) ∧
    com_retry_call busyOp 50 = Except.ok (some 7) ∧
    com_retry_attempts busyOp 50 = 3 ∧
    com_retry_sleeps busyOp 50 = 2 := by
  refine ⟨⟨by decide, rfl⟩, ?_⟩
  exact (c1_com_retry_spec 50).1 busyOp 2 7 (by decide)
    (fun i hi => ⟨⟨RPC_E_CALL_REJECTED⟩, by simp [busyOp, hi], by decide⟩) rfl

lemma pass1Step_top_of_filled (cfg : NormCfg) (st : Pass1State) (a : Attr)
    (h : st.top ≠ "") : (pass1Step cfg st a).top = st.top := by
  simp only [pass1Step]
  split_ifs with hv h2 h3 h4 h5 h6 <;> first | rfl | exact absurd h2.2 h

lemma pass1Step_bot_of_filled (cfg : NormCfg) (st : Pass1State) (a : Attr)
    (h : st.bot ≠ "") : (pass1Step cfg st a).bot = st.bot := by
  simp only [pass1Step]
  split_ifs with hv h2 h3 h4 h5 h6 <;> first | rfl | exact absurd h3.2 h

lemma pass1Step_titles_of_filled (cfg : NormCfg) (st : Pass1State) (a : Attr)
    (k : String) (h : st.titles k ≠ "") : (pass1Step cfg st a).titles k = st.titles k := by
  simp only [pass1Step]
  split_ifs with hv h2 h3 h4 h5 h6 <;> try rfl
  · show setKey st.titles a.norm_tag a.value k = st.titles k
    unfold setKey
    split_ifs with hk
    · exact absurd (by rw [hk]; exact h4.2) h
    · rfl
  · show setKey st.titles _ a.value k = st.titles k
    unfold setKey
    split_ifs with hk
    · exact absurd (by rw [hk]; exact h6) h
    · rfl

lemma pass1_top_of_filled (cfg : NormCfg) :
    ∀ (attrs : List Attr) (st : Pass1State), st.top ≠ "" →
      (pass1 cfg attrs st).top = st.top := by
  intro attrs
  induction attrs with
  | nil => intro st _; rfl
  | cons a l ih =>
    intro st h
    have h1 := pass1Step_top_of_filled cfg st a h
    have h2 := ih (pass1Step cfg st a) (by rw [h1]; exact h)
    calc (pass1 cfg (a :: l) st).top = (pass1 cfg l (pass1Step cfg st a)).top := rfl
      _ = (pass1Step cfg st a).top := h2
      _ = st.top := h1

lemma pass1_bot_of_filled (cfg : NormCfg) :
    ∀ (attrs : List Attr) (st : Pass1State), st.bot ≠ "" →
      (pass1 cfg attrs st).bot = st.bot := by
  intro attrs
  induction attrs with
  | nil => intro st _; rfl
  | cons a l ih =>
    intro st h
    have h1 := pass1Step_bot_of_filled cfg st a h
    have h2 := ih (pass1Step cfg st a) (by rw [h1]; exact h)
    calc (pass1 cfg (a :: l) st).bot = (pass1 cfg l (pass1Step cfg st a)).bot := rfl
      _ = (pass1Step cfg st a).bot := h2
      _ = st.bot := h1

lemma pass1_titles_of_filled (cfg : NormCfg) :
    ∀ (attrs : List Attr) (st : Pass1State) (k : String), st.titles k ≠ "" →
      (pass1 cfg attrs st).titles k = st.titles k := by
  intro attrs
  induction attrs with
  | nil => intro st k _; rfl
  | cons a l ih =>
    intro st k h
    have h1 := pass1Step_titles_of_filled cfg st a k h
    have h2 := ih (pass1Step cfg st a) k (by rw [h1]; exact h)
    calc (pass1 cfg (a :: l) st).titles k
        = (pass1 cfg l (pass1Step cfg st a)).titles k := rfl
      _ = (pass1Step cfg st a).titles k := h2
      _ = st.titles k := h1

/-- C2: the first pass of `analyze_block` visits attributes in input order,
skips empty values, applies the four rules in strict precedence (sheet-top
weight 3, sheet-bottom weight 3, title tag slot weight 1, positional title
prompt slot weight 1, first matching rule only), and never overwrites a
filled sheet-top, sheet-bottom, or title slot. -/
theorem c2_first_pass_spec (cfg : NormCfg) :
    (∀ (st : Pass1State) (a : Attr) (l : List Attr),
        pass1 cfg (a :: l) st = pass1 cfg l (pass1Step cfg st a))
    ∧ (∀ (st : Pass1State) (a : Attr), a.value = "" → pass1Step cfg st a = st)
    ∧ (∀ (st : Pass1State) (a : Attr),
        a.value ≠ "" →
        (a.norm_tag ∈ cfg.sheet_top_tag_norm ∨ a.norm_prompt ∈ cfg.sheet_top_prompt_norm) →
        st.top = "" →
        pass1Step cfg st a = { st with top := a.value, score := st.score + 3 })
    ∧ (∀ (st : Pass1State) (a : Attr),
        a.value ≠ "" →
        ¬((a.norm_tag ∈ cfg.sheet_top_tag_norm ∨ a.norm_prompt ∈ cfg.sheet_top_prompt_norm)
            ∧ st.top = "") →
        (a.norm_tag ∈ cfg.sheet_bot_tag_norm ∨ a.norm_prompt ∈ cfg.sheet_bot_prompt_norm) →
        st.bot = "" →
        pass1Step cfg st a = { st with bot := a.value, score := st.score + 3 })
    ∧ (∀ (st : Pass1State) (a : Attr),
        a.value ≠ "" →
        ¬((a.norm_tag ∈ cfg.sheet_top_tag_norm ∨ a.norm_prompt ∈ cfg.sheet_top_prompt_norm)
            ∧ st.top = "") →
        ¬((a.norm_tag ∈ cfg.sheet_bot_tag_norm ∨ a.norm_prompt ∈ cfg.sheet_bot_prompt_norm)
            ∧ st.bot = "") →
        a.norm_tag ∈ cfg.title_tag_norm_order →
        st.titles a.norm_tag = "" →
        pass1Step cfg st a =
          { st with titles := setKey st.titles a.norm_tag a.value, score := st.score + 1 })
    ∧ (∀ (st : Pass1State) (a : Attr),
        a.value ≠ "" →
        ¬((a.norm_tag ∈ cfg.sheet_top_tag_norm ∨ a.norm_prompt ∈ cfg.sheet_top_prompt_norm)
            ∧ st.top = "") →
        ¬((a.norm_tag ∈ cfg.sheet_bot_tag_norm ∨ a.norm_prompt ∈ cfg.sheet_bot_prompt_norm)
            ∧ st.bot = "") →
        ¬(a.norm_tag ∈ cfg.title_tag_norm_order ∧ st.titles a.norm_tag = "") →
        a.norm_prompt ∈ cfg.title_prompt_norm_order →
        st.titles (cfg.title_tag_norm_order.getD
          (indexOfStr cfg.title_prompt_norm_order a.norm_prompt) "") = "" →
        pass1Step cfg st a =
          { st with
            titles := setKey st.titles
              (cfg.title_tag_norm_order.getD
                (indexOfStr cfg.title_prompt_norm_order a.norm_prompt) "") a.value,
            score := st.score + 1 })
    ∧ (∀ (attrs : List Attr) (st : Pass1State), st.top ≠ "" →
        (pass1 cfg attrs st).top = st.top)
    ∧ (∀ (attrs : List Attr) (st : Pass1State), st.bot ≠ "" →
        (pass1 cfg attrs st).bot = st.bot)
    ∧ (∀ (attrs : List Attr) (st : Pass1State) (k : String), st.titles k ≠ "" →
        (pass1 cfg attrs st).titles k = st.titles k) := by
  refine ⟨fun st a l => rfl, ?_, ?_, ?_, ?_, ?_,
    pass1_top_of_filled cfg, pass1_bot_of_filled cfg, pass1_titles_of_filled cfg⟩
  · intro st a hv
    simp only [pass1Step, if_pos hv]
  · intro st a hv hm ht
    simp only [pass1Step]
    rw [if_neg hv, if_pos (And.intro hm ht)]
  · intro st a hv htc hm hb
    simp only [pass1Step]
    rw [if_neg hv, if_neg htc, if_pos (And.intro hm hb)]
  · intro st a hv htc hbc hm hempty
    simp only [pass1Step]
    rw [if_neg hv, if_neg htc, if_neg hbc, if_pos (And.intro hm hempty)]
  · intro st a hv htc hbc htag hpm hempty
    simp only [pass1Step]
    rw [if_neg hv, if_neg htc, if_neg hbc, if_neg htag, if_pos hpm, if_pos hempty]

/-- C2 witness: a sheet-top tagged attribute with value "A1" fills `top` and
adds 3, starting from the initial state. -/
theorem c2_first_pass_witness :
    (mkAttr "SHTOP" "" "A1").value ≠ "" ∧
    (mkAttr "SHTOP" "" "A1").norm_tag ∈ cfgA.sheet_top_tag_norm ∧
    pass1Step cfgA initPass1 (mkAttr "SHTOP" "" "A1") =
      { initPass1 with top := "A1", score := initPass1.score + 3 } := by
  refine ⟨by decide, by decide, ?_⟩
  exact (c2_first_pass_spec cfgA).2.2.1 initPass1 (mkAttr "SHTOP" "" "A1")
    (by decide) (Or.inl (by decide)) rfl

/-- C3 counterexample: with an empty `titleAliasPrompts` set, an attribute
whose normalized prompt is NOT in `titleAliasPrompts` (its prompt is empty)
still fills title slot 0 in the alias pass, because its normalized tag is the
hardcoded alias `ELECTRICAL` (scanner.py line 127). -/
theorem c3_alias_counterexample :
    (mkAttr "ELECTRICAL" "" "POWER").norm_prompt ∉ cfgA.title_prompt_alias_norm ∧
    (analyze_block cfgA [mkAttr "ELECTRICAL" "" "POWER"]).titles "TITLE1" = "POWER" := by
  exact ⟨by decide, by decide⟩

/-- C3 (amended): the alias pass runs only when title slot 0 is still empty
after the first pass, and fills slot 0 with the first attribute (in input
order, non-empty value) whose normalized prompt is in `titleAliasPrompts` OR
whose normalized tag is the hardcoded alias `ELECTRICAL`, adding 1 to the
score and scanning no further; attributes matching neither alias never fill
slot 0 in this pass. -/
theorem c3_alias_pass_spec (cfg : NormCfg) :
    (∀ (attrs : List Attr),
        (analyze_block cfg attrs).titles =
          (aliasPass cfg (pass1 cfg attrs initPass1) attrs).titles)
    ∧ (∀ (st : Pass1State) (attrs : List Attr),
        cfg.title_tag_norm_order = [] → aliasPass cfg st attrs = st)
    ∧ (∀ (st : Pass1State) (attrs : List Attr) (t1 : String) (rest : List String),
        cfg.title_tag_norm_order = t1 :: rest → st.titles t1 ≠ "" →
        aliasPass cfg st attrs = st)
    ∧ (∀ (st : Pass1State) (attrs : List Attr) (t1 : String) (rest : List String)
        (a : Attr),
        cfg.title_tag_norm_order = t1 :: rest → st.titles t1 = "" →
        attrs.find? (aliasMatch cfg) = some a →
        aliasPass cfg st attrs =
          { st with titles := setKey st.titles t1 a.value, score := st.score + 1 })
    ∧ (∀ (st : Pass1State) (attrs : List Attr) (t1 : String) (rest : List String),
        cfg.title_tag_norm_order = t1 :: rest → st.titles t1 = "" →
        attrs.find? (aliasMatch cfg) = none →
        aliasPass cfg st attrs = st)
    ∧ (∀ (a : Attr),
        aliasMatch cfg a = true ↔
          (a.value ≠ "" ∧
            (a.norm_prompt ∈ cfg.title_prompt_alias_norm ∨ a.norm_tag = "ELECTRICAL"))) := by
  refine ⟨fun attrs => rfl, ?_, ?_, ?_, ?_, ?_⟩
  · intro st attrs h
    simp only [aliasPass, h]
  · intro st attrs t1 rest h hne
    simp only [aliasPass, h]
    rw [if_neg hne]
  · intro st attrs t1 rest a h hempty hfind
    simp only [aliasPass, h, hfind]
    rw [if_pos hempty]
  · intro st attrs t1 rest h hempty hfind
    simp only [aliasPass, h, hfind]
    rw [if_pos hempty]
  · intro a
    have : norm_tag "ELECTRICAL" = "ELECTRICAL" := by decide
    simp [aliasMatch, this, String.ext_iff]

/-- C3 witness: with slot 0 empty, the first alias-matching attribute fills
slot 0 and adds 1 to the score. -/
theorem c3_alias_pass_witness :
    cfgA.title_tag_norm_order = "TITLE1" :: ["TITLE2"] ∧
    initPass1.titles "TITLE1" = "" ∧
    [mkAttr "ELECTRICAL" "" "POWER"].find? (aliasMatch cfgA) =
      some (mkAttr "ELECTRICAL" "" "POWER") ∧
    aliasPass cfgA initPass1 [mkAttr "ELECTRICAL" "" "POWER"] =
      { initPass1 with
        titles := setKey initPass1.titles "TITLE1" (mkAttr "ELECTRICAL" "" "POWER").value,
        score := initPass1.score + 1 } := by
  refine ⟨rfl, rfl, by decide, ?_⟩
  exact (c3_alias_pass_spec cfgA).2.2.2.1 initPass1 [mkAttr "ELECTRICAL" "" "POWER"]
    "TITLE1" ["TITLE2"] (mkAttr "ELECTRICAL" "" "POWER") rfl rfl (by decide)

/-- C4: for a candidate that passes the XRef/name/empty filters, the selector
replaces the best-so-far exactly when the score is strictly greater, or the
score ties and the raw attribute count is strictly greater; on a full tie (or
a lower score) the earlier best is kept. -/
theorem c4_tiebreak_spec (cfg : NormCfg) (best : Best) (ent : Candidate)
    (hx : ent.isXref = false)
    (hn : nameFilterReject cfg ent.blkname = false)
    (ha : ent.attrs ≠ []) :
    ((analyze_block cfg ent.attrs).score > best.score →
        consider_entity cfg best ent = bestOfEnt cfg ent)
    ∧ ((analyze_block cfg ent.attrs).score = best.score →
        ent.attrs.length > best.attrs_count →
        consider_entity cfg best ent = bestOfEnt cfg ent)
    ∧ ((analyze_block cfg ent.attrs).score = best.score →
        ent.attrs.length ≤ best.attrs_count →
        consider_entity cfg best ent = best)
    ∧ ((analyze_block cfg ent.attrs).score < best.score →
        consider_entity cfg best ent = best) := by
  refine ⟨?_, ?_, ?_, ?_⟩
  · intro hgt
    simp only [consider_entity, hx, hn, Bool.false_eq_true, if_false, if_neg ha]
    rw [if_pos (Or.inl hgt)]
  · intro heq hcnt
    simp only [consider_entity, hx, hn, Bool.false_eq_true, if_false, if_neg ha]
    rw [if_pos (Or.inr ⟨heq, hcnt⟩)]
  · intro heq hcnt
    simp only [consider_entity, hx, hn, Bool.false_eq_true, if_false, if_neg ha]
    rw [if_neg]
    rintro (hgt | ⟨_, hc⟩)
    · omega
    · omega
  · intro hlt
    simp only [consider_entity, hx, hn, Bool.false_eq_true, if_false, if_neg ha]
    rw [if_neg]
    rintro (hgt | ⟨heq, _⟩)
    · omega
    · omega

/-- C4 witness: a tying candidate with equal attribute count does not replace
the current best. -/
theorem c4_tiebreak_witness :
    (⟨"TB", false, [mkAttr "TITLE1" "" "X"]⟩ : Candidate).isXref = false ∧
    nameFilterReject cfgA "TB" = false ∧
    (analyze_block cfgA [mkAttr "TITLE1" "" "X"]).score = (1 : Int) ∧
    consider_entity cfgA
      { initBest with score := 1, attrs_count := 1, blkname := "FIRST" }
      ⟨"TB", false, [mkAttr "TITLE1" "" "X"]⟩ =
      { initBest with score := 1, attrs_count := 1, blkname := "FIRST" } := by
  refine ⟨rfl, by decide, by decide, ?_⟩
  exact (c4_tiebreak_spec cfgA
      { initBest with score := 1, attrs_count := 1, blkname := "FIRST" }
      ⟨"TB", false, [mkAttr "TITLE1" "" "X"]⟩ rfl (by decide) (by decide)).2.2.1
    (by decide) (by decide)

lemma consider_entity_no_attrs (cfg : NormCfg) (best : Best) (ent : Candidate)
    (h : ent.attrs = []) : consider_entity cfg best ent = best := by
  simp only [consider_entity, h]
  split_ifs <;> rfl

lemma selectBest_all_empty (cfg : NormCfg) :
    ∀ (cands : List Candidate) (best : Best), (∀ c ∈ cands, c.attrs = []) →
      cands.foldl (consider_entity cfg) best = best := by
  intro cands
  induction cands with
  | nil => intro best _; rfl
  | cons c l ih =>
    intro best h
    have h1 : consider_entity cfg best c = best :=
      consider_entity_no_attrs cfg best c (h c (by simp))
    calc (c :: l).foldl (consider_entity cfg) best
        = l.foldl (consider_entity cfg) (consider_entity cfg best c) := rfl
      _ = l.foldl (consider_entity cfg) best := by rw [h1]
      _ = best := ih best (fun x hx => h x (by simp [hx]))

/-- C5 counterexample: scoring a candidate with no attributes does NOT yield
a negative score — `analyze_block` on an empty attribute list returns 0. -/
theorem c5_empty_score_counterexample :
    (analyze_block cfgA []).score = 0 ∧ ¬((analyze_block cfgA []).score < 0) := by
  exact ⟨by decide, by decide⟩

/-- C5 (amended): a candidate with no attributes is rejected by the selector
before scoring, leaving the best-so-far (and its "no candidate" score −1)
unchanged; hence a scan whose every candidate has no attributes returns the
all-sentinel result with empty `otherFields`. -/
theorem c5_no_attrs_spec :
    (∀ (cfg : NormCfg) (best : Best) (ent : Candidate), ent.attrs = [] →
        consider_entity cfg best ent = best)
    ∧ (∀ (cfg : NormCfg) (cands : List Candidate), (∀ c ∈ cands, c.attrs = []) →
        (selectBest cfg cands).score = -1 ∧ scan_layout cfg cands = notFoundResult)
    ∧ (∀ (cfg : MatchConfig) (cands : List Candidate), (∀ c ∈ cands, c.attrs = []) →
        read_titleblock_from_active_layout_robust cfg cands = notFoundResult) := by
  have hscan : ∀ (cfg : NormCfg) (cands : List Candidate),
      (∀ c ∈ cands, c.attrs = []) →
      (selectBest cfg cands).score = -1 ∧ scan_layout cfg cands = notFoundResult := by
    intro cfg cands h
    have hb : selectBest cfg cands = initBest := selectBest_all_empty cfg cands initBest h
    refine ⟨by rw [hb]; rfl, ?_⟩
    simp only [scan_layout, hb]
    rw [if_pos (by decide : initBest.score < 0)]
  exact ⟨consider_entity_no_attrs, hscan,
    fun cfg cands h => (hscan (normalizeCfg cfg) cands h).2⟩

/-- C5 witness: a one-candidate scan where the candidate has no attributes
returns the all-sentinel result. -/
theorem c5_no_attrs_witness :
    (∀ c ∈ [(⟨"TB", false, []⟩ : Candidate)], c.attrs = []) ∧
    scan_layout cfgA [⟨"TB", false, []⟩] = notFoundResult := by
  refine ⟨by decide, ?_⟩
  exact ((c5_no_attrs_spec).2.1 cfgA [⟨"TB", false, []⟩] (by decide)).2

/-- C6: `otherFields` is built by walking the winning candidate's attributes in
original order (the fold), skipping empty values and attributes whose
normalized tag/prompt is consumed — where the consumed tags sweep the entire
configured revision index range — with first-occurrence-wins keys (raw tag, or
raw prompt when the tag is empty). -/
theorem c6_other_fields_spec (cfg : NormCfg) :
    (∀ (cands : List Candidate), ¬(selectBest cfg cands).score < 0 →
        (scan_layout cfg cands).other_attrs = buildOther cfg (selectBest cfg cands).attrs)
    ∧ (∀ (st : List (String × String)) (a : Attr) (l : List Attr),
        (a :: l).foldl (otherStep (usedNormTags cfg) (usedNormPrompts cfg)) st =
          l.foldl (otherStep (usedNormTags cfg) (usedNormPrompts cfg))
            (otherStep (usedNormTags cfg) (usedNormPrompts cfg) st a))
    ∧ (∀ (st : List (String × String)) (a : Attr), a.value = "" →
        otherStep (usedNormTags cfg) (usedNormPrompts cfg) st a = st)
    ∧ (∀ (st : List (String × String)) (a : Attr),
        a.norm_tag ∈ usedNormTags cfg ∨ a.norm_prompt ∈ usedNormPrompts cfg →
        otherStep (usedNormTags cfg) (usedNormPrompts cfg) st a = st)
    ∧ (∀ (st : List (String × String)) (a : Attr),
        (st.find? (fun p => p.1 == otherKey a)).isSome →
        otherStep (usedNormTags cfg) (usedNormPrompts cfg) st a = st)
    ∧ (∀ (st : List (String × String)) (a : Attr),
        a.value ≠ "" →
        ¬(a.norm_tag ∈ usedNormTags cfg ∨ a.norm_prompt ∈ usedNormPrompts cfg) →
        (st.find? (fun p => p.1 == otherKey a)).isSome = false →
        otherStep (usedNormTags cfg) (usedNormPrompts cfg) st a =
          st ++ [(otherKey a, a.value)])
    ∧ (∀ (a : Attr), a.raw_tag ≠ "" → otherKey a = a.raw_tag)
    ∧ (∀ (a : Attr), a.raw_tag = "" → a.raw_prompt ≠ "" → otherKey a = a.raw_prompt)
    ∧ (∀ (idx : Nat) (k : RevKind), idx ∈ cfg.revision_index_range →
        revTagStr idx k ∈ usedNormTags cfg)
    ∧ (∀ (t : String),
        t ∈ cfg.sheet_top_tag_norm ∨ t ∈ cfg.sheet_bot_tag_norm ∨
          t ∈ cfg.title_tag_norm_order → t ∈ usedNormTags cfg)
    ∧ (∀ (p : String),
        p ∈ cfg.sheet_top_prompt_norm ∨ p ∈ cfg.sheet_bot_prompt_norm ∨
          p ∈ cfg.title_prompt_norm_order ∨ p ∈ cfg.title_prompt_alias_norm →
        p ∈ usedNormPrompts cfg) := by
  refine ⟨?_, fun st a l => rfl, ?_, ?_, ?_, ?_, ?_, ?_, ?_, ?_, ?_⟩
  · intro cands h
    simp only [scan_layout, selectBest] at *
    rw [if_neg h]
  · intro st a hv
    simp only [otherStep, if_pos hv]
  · intro st a hused
    simp only [otherStep]
    split_ifs <;> rfl
  · intro st a hfound
    simp only [otherStep]
    split_ifs <;> rfl
  · intro st a hv hused hfound
    simp only [otherStep]
    rw [if_neg hv, if_neg hused, if_neg (by rw [hfound]; exact Bool.false_ne_true)]
  · intro a h
    simp only [otherKey, if_pos h]
  · intro a h1 h2
    simp only [otherKey, h1]
    rw [if_neg (by simp), if_pos h2]
  · intro idx k hidx
    simp only [usedNormTags, List.mem_append, List.mem_flatten]
    refine Or.inr ⟨[revTagStr idx RevKind.NO, revTagStr idx RevKind.DATE,
      revTagStr idx RevKind.DESC, revTagStr idx RevKind.BY], ?_, ?_⟩
    · exact List.mem_map.mpr ⟨idx, hidx, rfl⟩
    · cases k <;> simp [revTagStr]
  · intro t ht
    simp only [usedNormTags, List.mem_append]
    tauto
  · intro p hp
    simp only [usedNormPrompts, List.mem_append]
    tauto

/-- C6 witness: a fresh non-consumed attribute is appended with its raw tag as
key; the consumed-tag sweep contains `R5NO` for the default index range. -/
theorem c6_other_fields_witness :
    (mkAttr "CLIENT" "" "ACME").value ≠ "" ∧
    ¬((mkAttr "CLIENT" "" "ACME").norm_tag ∈ usedNormTags cfgA ∨
        (mkAttr "CLIENT" "" "ACME").norm_prompt ∈ usedNormPrompts cfgA) ∧
    otherStep (usedNormTags cfgA) (usedNormPrompts cfgA) [] (mkAttr "CLIENT" "" "ACME") =
      [("CLIENT", "ACME")] ∧
    revTagStr 5 RevKind.NO ∈ usedNormTags cfgA ∧ revTagStr 5 RevKind.NO = "R5NO" := by
  refine ⟨by decide, by decide, ?_, ?_, by decide⟩
  · exact (c6_other_fields_spec cfgA).2.2.2.2.2.1 [] (mkAttr "CLIENT" "" "ACME")
      (by decide) (by decide) rfl
  · exact (c6_other_fields_spec cfgA).2.2.2.2.2.2.2.2.1 5 RevKind.NO (by decide)

lemma maxNatList_mem_ub : ∀ (l : List Nat) (m : Nat), maxNatList l = some m →
    m ∈ l ∧ ∀ b ∈ l, b ≤ m := by
  intro l
  induction l with
  | nil => intro m h; cases h
  | cons x xs ih =>
    intro m h
    simp only [maxNatList] at h
    rcases hxs : maxNatList xs with _ | m'
    · rw [hxs] at h
      obtain rfl : x = m := by injection h
      refine ⟨List.mem_cons_self x xs, ?_⟩
      intro b hb
      rcases List.mem_cons.mp hb with rfl | hbt
      · exact Nat.le_refl b
      · exact absurd hxs (by
          cases xs with
          | nil => cases hbt
          | cons y ys => cases hys : maxNatList ys <;> simp [maxNatList, hys])
    · rw [hxs] at h
      obtain rfl : max x m' = m := by injection h
      obtain ⟨hm'mem, hm'ub⟩ := ih m' hxs
      constructor
      · by_cases hc : x ≤ m'
        · rw [max_eq_right hc]; exact List.mem_cons_of_mem x hm'mem
        · rw [max_eq_left (Nat.le_of_not_le hc)]; exact List.mem_cons_self x xs
      · intro b hb
        rcases List.mem_cons.mp hb with rfl | hbt
        · exact le_max_left _ _
        · exact le_trans (hm'ub b hbt) (le_max_right _ _)

lemma maxNatList_of_mem_ub : ∀ (l : List Nat) (m : Nat), m ∈ l → (∀ b ∈ l, b ≤ m) →
    maxNatList l = some m := by
  intro l
  induction l with
  | nil => intro m hm; cases hm
  | cons x xs ih =>
    intro m hm hub
    simp only [maxNatList]
    rcases hxs : maxNatList xs with _ | m'
    · have hxsnil : xs = [] := by
        cases xs with
        | nil => rfl
        | cons y ys =>
          exact absurd hxs (by cases hys : maxNatList ys <;> simp [maxNatList, hys])
      subst hxsnil
      obtain rfl : m = x := by
        rcases List.mem_cons.mp hm with rfl | h
        · rfl
        · cases h
      rfl
    · obtain ⟨hm'mem, hm'ub⟩ := maxNatList_mem_ub xs m' hxs
      have h1 : m' ≤ m := hub m' (List.mem_cons_of_mem x hm'mem)
      have h2 : x ≤ m := hub x (List.mem_cons_self x xs)
      have h3 : m ≤ max x m' := by
        rcases List.mem_cons.mp hm with rfl | h
        · exact le_max_left _ _
        · exact le_trans (hm'ub m h) (le_max_right _ _)
      show some (max x m') = some m
      rw [le_antisymm (max_le h2 h1) h3]

lemma find?_key_unique {α β : Type} [DecidableEq β] (f : α → β) :
    ∀ (l : List α) (a : α) (k : β), (l.map f).Nodup → a ∈ l → f a = k →
      l.find? (fun x => f x == k) = some a := by
  intro l
  induction l with
  | nil => intro a k _ ha; cases ha
  | cons b t ih =>
    intro a k hnd ha hk
    by_cases hb : f b = k
    · obtain rfl : a = b := by
        rcases List.mem_cons.mp ha with rfl | hat
        · rfl
        · exfalso
          have hmem : f a ∈ t.map f := List.mem_map_of_mem f hat
          have hnotin : f b ∉ t.map f := (List.nodup_cons.mp (by simpa using hnd)).1
          rw [hk, ← hb] at hmem
          exact hnotin hmem
      rw [List.find?_cons_of_pos _ (by simp [hb])]
    · have hat : a ∈ t := by
        rcases List.mem_cons.mp ha with rfl | hat
        · exact absurd hk hb
        · exact hat
      rw [List.find?_cons_of_neg _ (by simp [hb])]
      exact ih a k (List.nodup_cons.mp (by simpa using hnd)).2 hat hk

/-- C7: the output revision fields come from the numerically highest revision
index whose NO sub-field is non-empty (all four sentinel if no index
qualifies; each chosen sub-field is its own value or the sentinel if empty). -/
theorem c7_revision_resolution_spec (revs : List (Nat × RevEntry)) :
    ((∀ p ∈ revs, p.2.NO = "") →
        composeRevs revs = ("Not Found", "Not Found", "Not Found", "Not Found"))
    ∧ (∀ (m : Nat) (e : RevEntry),
        (revs.map Prod.fst).Nodup → (m, e) ∈ revs → e.NO ≠ "" →
        (∀ p ∈ revs, p.2.NO ≠ "" → p.1 ≤ m) →
        composeRevs revs =
          (orNotFound e.NO, orNotFound e.DATE, orNotFound e.DESC, orNotFound e.BY)) := by
  constructor
  · intro h
    by_cases hnil : revs = []
    · subst hnil; rfl
    · have hfilt : revs.filter (fun p => p.2.NO != "") = [] := by
        rw [List.filter_eq_nil_iff]
        intro q hq
        simp [h q hq]
      simp only [composeRevs, maxRevIdx, hfilt, List.map_nil, maxNatList]
      rw [if_neg hnil]
  · intro m e hnd hmem hNO hmax
    have hne : revs ≠ [] := by
      intro h
      rw [h] at hmem
      cases hmem
    have hmmax : maxRevIdx revs = some m := by
      unfold maxRevIdx
      apply maxNatList_of_mem_ub
      · exact List.mem_map.mpr ⟨(m, e), List.mem_filter.mpr ⟨hmem, by simp [hNO]⟩, rfl⟩
      · intro b hb
        obtain ⟨p, hp, rfl⟩ := List.mem_map.mp hb
        have hpf := List.mem_filter.mp hp
        exact hmax p hpf.1 (by simpa using hpf.2)
    have hfind : revs.find? (fun p => p.1 == m) = some (m, e) :=
      find?_key_unique Prod.fst revs (m, e) m hnd hmem rfl
    simp only [composeRevs, hmmax, hfind]
    rw [if_neg hne]

/-- C7 witness: the spec's example — revisions 0 ↦ NO "A", 2 ↦ NO "C", 1 ↦ empty —
resolves to index 2's fields, with the empty sub-fields sentinelled. -/
theorem c7_revision_resolution_witness :
    ((0, { NO := "A", DATE := "", DESC := "", BY := "" }) :
        Nat × RevEntry) ∈
      [((0 : Nat), ({ NO := "A", DATE := "", DESC := "", BY := "" } : RevEntry)),
       (2, { NO := "C", DATE := "", DESC := "", BY := "" }),
       (1, emptyRevEntry)] ∧
    composeRevs
      [((0 : Nat), ({ NO := "A", DATE := "", DESC := "", BY := "" } : RevEntry)),
       (2, { NO := "C", DATE := "", DESC := "", BY := "" }),
       (1, emptyRevEntry)] = ("C", "Not Found", "Not Found", "Not Found") := by
  refine ⟨by decide, ?_⟩
  have h := (c7_revision_resolution_spec
      [((0 : Nat), ({ NO := "A", DATE := "", DESC := "", BY := "" } : RevEntry)),
       (2, { NO := "C", DATE := "", DESC := "", BY := "" }),
       (1, emptyRevEntry)]).2 2 { NO := "C", DATE := "", DESC := "", BY := "" }
    (by decide) (by decide) (by decide) (by decide)
  simpa [orNotFound] using h

lemma pass1Step_titleOnly (cfg : NormCfg) (st : Pass1State) (a : Attr)
    (h : TitleOnly cfg a) (hempty : st.titles a.norm_tag = "") :
    pass1Step cfg st a =
      { st with titles := setKey st.titles a.norm_tag a.value, score := st.score + 1 } := by
  obtain ⟨hv, htag, ht1, hb1, hp1, hp2, hpo, hal, hel⟩ := h
  simp only [pass1Step]
  rw [if_neg hv, if_neg (fun hc => hc.1.elim ht1 hp1),
    if_neg (fun hc => hc.1.elim hb1 hp2), if_pos (And.intro htag hempty)]

lemma pass1_titleOnly_char (cfg : NormCfg) :
    ∀ (attrs : List Attr) (st : Pass1State) (k : String),
      (∀ a ∈ attrs, TitleOnly cfg a) →
      ((attrs.map Attr.norm_tag).Nodup) →
      (∀ a ∈ attrs, st.titles a.norm_tag = "") →
      (pass1 cfg attrs st).titles k =
        (match attrs.find? (fun a => a.norm_tag == k) with
         | some a => a.value
         | none => st.titles k) := by
  intro attrs
  induction attrs with
  | nil => intro st k _ _ _; rfl
  | cons a l ih =>
    intro st k hto hnd hem
    have ha := hto a (List.mem_cons_self a l)
    have hstep := pass1Step_titleOnly cfg st a ha (hem a (List.mem_cons_self a l))
    have hndt : (l.map Attr.norm_tag).Nodup := (List.nodup_cons.mp (by simpa using hnd)).2
    have hanotin : a.norm_tag ∉ l.map Attr.norm_tag :=
      (List.nodup_cons.mp (by simpa using hnd)).1
    have hem' : ∀ b ∈ l, (pass1Step cfg st a).titles b.norm_tag = "" := by
      intro b hb
      rw [hstep]
      show setKey st.titles a.norm_tag a.value b.norm_tag = ""
      unfold setKey
      rw [if_neg (fun hc : b.norm_tag = a.norm_tag =>
        hanotin (hc ▸ List.mem_map_of_mem Attr.norm_tag hb))]
      exact hem b (List.mem_cons_of_mem a hb)
    have hrec := ih (pass1Step cfg st a) k
      (fun b hb => hto b (List.mem_cons_of_mem a hb)) hndt hem'
    have hfold : pass1 cfg (a :: l) st = pass1 cfg l (pass1Step cfg st a) := rfl
    by_cases hk : a.norm_tag = k
    · rw [hfold, hrec, List.find?_cons_of_pos _ (by simp [hk])]
      have hlnone : l.find? (fun b => b.norm_tag == k) = none := by
        rw [List.find?_eq_none]
        intro b hb hbeq
        have hbk : b.norm_tag = k := by simpa using hbeq
        exact hanotin (by rw [hk, ← hbk]; exact List.mem_map_of_mem Attr.norm_tag hb)
      rw [hlnone, hstep]
      show setKey st.titles a.norm_tag a.value k = a.value
      unfold setKey
      rw [if_pos hk.symm]
    · rw [hfold, hrec, List.find?_cons_of_neg _ (by simp [hk])]
      cases hf : l.find? (fun b => b.norm_tag == k) with
      | some b => rfl
      | none =>
        rw [hstep]
        show setKey st.titles a.norm_tag a.value k = st.titles k
        unfold setKey
        rw [if_neg (fun hc => hk hc.symm)]

lemma aliasMatch_eq_false_of_titleOnly (cfg : NormCfg) (a : Attr)
    (h : TitleOnly cfg a) : aliasMatch cfg a = false := by
  obtain ⟨hv, htag, ht1, hb1, hp1, hp2, hpo, hal, hel⟩ := h
  simp [aliasMatch, hal, hel]

lemma aliasPass_of_no_match (cfg : NormCfg) (st : Pass1State) (attrs : List Attr)
    (h : ∀ a ∈ attrs, aliasMatch cfg a = false) : aliasPass cfg st attrs = st := by
  rcases hord : cfg.title_tag_norm_order with _ | ⟨t1, rest⟩
  · simp [aliasPass, hord]
  · simp only [aliasPass, hord]
    split_ifs with hempty
    · rw [List.find?_eq_none.mpr (fun a ha => by simp [h a ha])]
    · rfl

/-- C8: the output sheet title joins the non-empty title slot values in
configured slot order with the title joiner; for attributes that each fill a
distinct slot by tag, any permutation of the attribute sequence produces the
same titles mapping and hence the identical assembled title. -/
theorem c8_title_order_spec (cfg : NormCfg) :
    (∀ (cands : List Candidate), ¬(selectBest cfg cands).score < 0 →
        (scan_layout cfg cands).sheet_title =
          composeTitle cfg (selectBest cfg cands).titles)
    ∧ (∀ (attrs1 attrs2 : List Attr),
        attrs1.Perm attrs2 →
        (∀ a ∈ attrs1, TitleOnly cfg a) →
        ((attrs1.map Attr.norm_tag).Nodup) →
        (analyze_block cfg attrs1).titles = (analyze_block cfg attrs2).titles ∧
        composeTitle cfg (analyze_block cfg attrs1).titles =
          composeTitle cfg (analyze_block cfg attrs2).titles) := by
  constructor
  · intro cands h
    simp only [scan_layout, selectBest] at *
    rw [if_neg h]
  · intro attrs1 attrs2 hperm hto hnd
    have hto2 : ∀ a ∈ attrs2, TitleOnly cfg a := fun a ha => hto a (hperm.mem_iff.mpr ha)
    have hnd2 : (attrs2.map Attr.norm_tag).Nodup := ((hperm.map Attr.norm_tag).nodup_iff).mp hnd
    have h1 : (analyze_block cfg attrs1).titles = (pass1 cfg attrs1 initPass1).titles := by
      show (aliasPass cfg (pass1 cfg attrs1 initPass1) attrs1).titles = _
      rw [aliasPass_of_no_match cfg _ attrs1
        (fun a ha => aliasMatch_eq_false_of_titleOnly cfg a (hto a ha))]
    have h2 : (analyze_block cfg attrs2).titles = (pass1 cfg attrs2 initPass1).titles := by
      show (aliasPass cfg (pass1 cfg attrs2 initPass1) attrs2).titles = _
      rw [aliasPass_of_no_match cfg _ attrs2
        (fun a ha => aliasMatch_eq_false_of_titleOnly cfg a (hto2 a ha))]
    have htitles : (analyze_block cfg attrs1).titles = (analyze_block cfg attrs2).titles := by
      rw [h1, h2]
      funext k
      rw [pass1_titleOnly_char cfg attrs1 initPass1 k hto hnd (fun a _ => rfl),
          pass1_titleOnly_char cfg attrs2 initPass1 k hto2 hnd2 (fun a _ => rfl)]
      by_cases hex : ∃ a, a ∈ attrs1 ∧ a.norm_tag = k
      · obtain ⟨a, ha, hak⟩ := hex
        rw [find?_key_unique Attr.norm_tag attrs1 a k hnd ha hak,
            find?_key_unique Attr.norm_tag attrs2 a k hnd2 (hperm.mem_iff.mp ha) hak]
      · rw [List.find?_eq_none.mpr (fun x hx hpx => hex ⟨x, hx, by simpa using hpx⟩),
            List.find?_eq_none.mpr
              (fun x hx hpx => hex ⟨x, hperm.mem_iff.mpr hx, by simpa using hpx⟩)]
    exact ⟨htitles, by rw [htitles]⟩

/-- C8 witness: config slots `[TITLE1, TITLE2]` with attributes arriving as
TITLE2 ↦ "TANK" then TITLE1 ↦ "FAB" yields the same title as the swapped
order, namely "FAB TANK". -/
theorem c8_title_order_witness :
    ([mkAttr "TITLE2" "" "TANK", mkAttr "TITLE1" "" "FAB"].Perm
      [mkAttr "TITLE1" "" "FAB", mkAttr "TITLE2" "" "TANK"]) ∧
    (∀ a ∈ [mkAttr "TITLE2" "" "TANK", mkAttr "TITLE1" "" "FAB"], TitleOnly cfgA a) ∧
    composeTitle cfgA
        (analyze_block cfgA [mkAttr "TITLE2" "" "TANK", mkAttr "TITLE1" "" "FAB"]).titles =
      composeTitle cfgA
        (analyze_block cfgA [mkAttr "TITLE1" "" "FAB", mkAttr "TITLE2" "" "TANK"]).titles ∧
    composeTitle cfgA
        (analyze_block cfgA [mkAttr "TITLE2" "" "TANK", mkAttr "TITLE1" "" "FAB"]).titles =
      "FAB TANK" := by
  refine ⟨by decide, by decide, ?_, by decide⟩
  exact ((c8_title_order_spec cfgA).2 _ _ (by decide) (by decide) (by decide)).2

lemma getRevField_setRevField_self (e : RevEntry) (k : RevKind) (v : String) :
    getRevField (setRevField e k v) k = v := by
  cases k <;> rfl

lemma getRevField_setRevField_ne (e : RevEntry) (k k' : RevKind) (v : String)
    (h : k' ≠ k) : getRevField (setRevField e k' v) k = getRevField e k := by
  cases k' <;> cases k <;> first | rfl | exact absurd rfl h

lemma find?_key_comm (g : Nat × RevEntry → Nat × RevEntry)
    (hg : ∀ p, (g p).1 = p.1) (idx : Nat) :
    ∀ (revs : List (Nat × RevEntry)),
      (revs.map g).find? (fun p => p.1 == idx) =
        (revs.find? (fun p => p.1 == idx)).map g := by
  intro revs
  induction revs with
  | nil => rfl
  | cons q t ih =>
    by_cases hq : q.1 = idx
    · rw [List.map_cons, List.find?_cons_of_pos _ (by simp [hg, hq]),
        List.find?_cons_of_pos _ (by simp [hq])]
      rfl
    · rw [List.map_cons, List.find?_cons_of_neg _ (by simp [hg, hq]),
        List.find?_cons_of_neg _ (by simp [hq])]
      exact ih

lemma find?_append_of_none {α : Type} (p : α → Bool) :
    ∀ (l₁ l₂ : List α), l₁.find? p = none → (l₁ ++ l₂).find? p = l₂.find? p := by
  intro l₁
  induction l₁ with
  | nil => intro l₂ _; rfl
  | cons a t ih =>
    intro l₂ h
    have hall := List.find?_eq_none.mp h
    rw [List.cons_append, List.find?_cons_of_neg _ (hall a (List.mem_cons_self a t))]
    exact ih l₂ (List.find?_eq_none.mpr (fun x hx => hall x (List.mem_cons_of_mem a hx)))

lemma revKindLookup_revSetIn_self (revs : List (Nat × RevEntry)) (idx : Nat)
    (kind : RevKind) (v : String) :
    revKindLookup (revSetIn revs idx kind v) idx kind = some v := by
  unfold revKindLookup revSetIn
  by_cases hany : revs.any (fun p => p.1 == idx)
  · rw [if_pos hany,
      find?_key_comm (fun p => if p.1 = idx then (p.1, setRevField p.2 kind v) else p)
        (fun p => by by_cases h : p.1 = idx <;> simp [h]) idx revs]
    cases hf : revs.find? (fun p => p.1 == idx) with
    | none =>
      exfalso
      obtain ⟨p, hpmem, hptrue⟩ := List.any_eq_true.mp hany
      exact absurd hptrue (by simpa using List.find?_eq_none.mp hf p hpmem)
    | some p =>
      have hp1 : p.1 = idx := by simpa using List.find?_some hf
      simp [hp1, getRevField_setRevField_self]
  · rw [if_neg hany,
      find?_append_of_none _ revs _
        (List.find?_eq_none.mpr (fun x hx hpx =>
          (List.any_eq_true.not.mp hany) ⟨x, hx, hpx⟩))]
    simp [getRevField_setRevField_self]

lemma revKindLookup_revSetIn_ne_kind (revs : List (Nat × RevEntry)) (idx : Nat)
    (kind kind' : RevKind) (v v' : String) (hne : kind' ≠ kind)
    (h : revKindLookup revs idx kind = some v) :
    revKindLookup (revSetIn revs idx kind' v') idx kind = some v := by
  unfold revKindLookup revSetIn at *
  cases hf : revs.find? (fun p => p.1 == idx) with
  | none => rw [hf] at h; cases h
  | some p =>
    rw [hf] at h
    have hany : revs.any (fun p => p.1 == idx) := List.any_eq_true.mpr
      ⟨p, List.mem_of_find?_eq_some hf, by simpa using List.find?_some hf⟩
    rw [if_pos hany,
      find?_key_comm (fun p => if p.1 = idx then (p.1, setRevField p.2 kind' v') else p)
        (fun p => by by_cases hq : p.1 = idx <;> simp [hq]) idx revs, hf]
    have hp1 : p.1 = idx := by simpa using List.find?_some hf
    simp only [Option.map_some', if_pos hp1]
    simp only [Option.map_some'] at h
    simp [getRevField_setRevField_ne p.2 kind kind' v' hne]
    simpa using h

lemma revKindLookup_revSetIn_ne_idx (revs : List (Nat × RevEntry)) (idx idx' : Nat)
    (kind kind' : RevKind) (v v' : String) (hne : idx' ≠ idx)
    (h : revKindLookup revs idx kind = some v) :
    revKindLookup (revSetIn revs idx' kind' v') idx kind = some v := by
  unfold revKindLookup revSetIn at *
  by_cases hany : revs.any (fun p => p.1 == idx')
  · rw [if_pos hany,
      find?_key_comm (fun p => if p.1 = idx' then (p.1, setRevField p.2 kind' v') else p)
        (fun p => by by_cases hq : p.1 = idx' <;> simp [hq]) idx revs]
    cases hf : revs.find? (fun p => p.1 == idx) with
    | none => rw [hf] at h; cases h
    | some p =>
      rw [hf] at h
      have hp1 : p.1 = idx := by simpa using List.find?_some hf
      simp only [Option.map_some']
      rw [if_neg (by rw [hp1]; exact fun hc => hne hc.symm)]
      exact h
  · rw [if_neg hany]
    cases hf : revs.find? (fun p => p.1 == idx) with
    | none => rw [hf] at h; cases h
    | some p =>
      rw [hf] at h
      have hfind : (revs ++ [(idx', setRevField emptyRevEntry kind' v')]).find?
          (fun p => p.1 == idx) = some p := by
        rw [List.find?_append]
        simp [hf]
      rw [hfind]
      exact h

lemma revStep_score (cfg : NormCfg) (st : Int × List (Nat × RevEntry)) (a : Attr) :
    (revStep cfg st a).1 = st.1 + (if revMatches cfg a then 1 else 0) := by
  by_cases hv : a.value = ""
  · simp [revStep, revMatches, hv]
  · rcases hp : parseRevTag a.norm_tag with _ | ⟨idx, kind⟩
    · simp [revStep, revMatches, hv, hp]
    · by_cases hr : idx ∈ cfg.revision_index_range
      · simp [revStep, revMatches, hv, hp, hr]
      · simp [revStep, revMatches, hv, hp, hr]

lemma revFold_score (cfg : NormCfg) :
    ∀ (attrs : List Attr) (st : Int × List (Nat × RevEntry)),
      (attrs.foldl (revStep cfg) st).1 = st.1 + (attrs.countP (revMatches cfg) : Int) := by
  intro attrs
  induction attrs with
  | nil => intro st; simp
  | cons a l ih =>
    intro st
    have hfold : (a :: l).foldl (revStep cfg) st = l.foldl (revStep cfg) (revStep cfg st a) :=
      rfl
    rw [hfold, ih, revStep_score, List.countP_cons]
    push_cast
    split_ifs <;> ring

lemma revFold_preserve (cfg : NormCfg) (idx : Nat) (kind : RevKind) (v : String) :
    ∀ (l : List Attr) (st : Int × List (Nat × RevEntry)),
      (∀ a ∈ l, revWritesAt cfg idx kind a = false) →
      revKindLookup st.2 idx kind = some v →
      revKindLookup (l.foldl (revStep cfg) st).2 idx kind = some v := by
  intro l
  induction l with
  | nil => intro st _ h; exact h
  | cons a t ih =>
    intro st hall h
    refine ih (revStep cfg st a) (fun b hb => hall b (List.mem_cons_of_mem a hb)) ?_
    have hfa := hall a (List.mem_cons_self a t)
    by_cases hv : a.value = ""
    · simpa [revStep, hv] using h
    · rcases hp : parseRevTag a.norm_tag with _ | ⟨idx', kind'⟩
      · simpa [revStep, hv, hp] using h
      · by_cases hr : idx' ∈ cfg.revision_index_range
        · have hstep : (revStep cfg st a).2 = revSetIn st.2 idx' kind' a.value := by
            simp [revStep, hv, hp, hr]
          rw [hstep]
          have hnepair : ¬(idx' = idx ∧ kind' = kind) := by
            rintro ⟨rfl, rfl⟩
            rw [revWritesAt] at hfa
            simp [hv, hp, hr] at hfa
          by_cases hidx : idx' = idx
          · subst hidx
            exact revKindLookup_revSetIn_ne_kind st.2 idx' kind kind' v a.value
              (fun hc => hnepair ⟨rfl, hc⟩) h
          · exact revKindLookup_revSetIn_ne_idx st.2 idx idx' kind kind' v a.value hidx h
        · simpa [revStep, hv, hp, hr] using h

lemma revFold_last_write (cfg : NormCfg) (idx : Nat) (kind : RevKind) :
    ∀ (l : List Attr) (st : Int × List (Nat × RevEntry)) (a : Attr),
      (l.filter (revWritesAt cfg idx kind)).getLast? = some a →
      revKindLookup (l.foldl (revStep cfg) st).2 idx kind = some a.value := by
  intro l
  induction l with
  | nil => intro st a h; cases h
  | cons b t ih =>
    intro st a h
    by_cases hb : revWritesAt cfg idx kind b
    · rw [List.filter_cons_of_pos hb] at h
      rcases hft : t.filter (revWritesAt cfg idx kind) with _ | ⟨c, cs⟩
      · rw [hft] at h
        obtain rfl : b = a := by simpa using h
        have hcomp : (¬b.value = "" ∧ parseRevTag b.norm_tag = some (idx, kind)) ∧
            idx ∈ cfg.revision_index_range := by
          rw [revWritesAt] at hb
          simpa using hb
        obtain ⟨⟨hv, hp⟩, hr⟩ := hcomp
        have hstep : (revStep cfg st b).2 = revSetIn st.2 idx kind b.value := by
          simp [revStep, hv, hp, hr]
        refine revFold_preserve cfg idx kind b.value t (revStep cfg st b) ?_ ?_
        · intro x hx
          by_contra hcx
          have : x ∈ t.filter (revWritesAt cfg idx kind) :=
            List.mem_filter.mpr ⟨hx, by simpa using hcx⟩
          rw [hft] at this
          cases this
        · rw [hstep]
          exact revKindLookup_revSetIn_self st.2 idx kind b.value
      · rw [hft] at h
        rw [List.getLast?_cons_cons] at h
        exact ih (revStep cfg st b) a (by rw [hft]; exact h)
    · rw [List.filter_cons_of_neg hb] at h
      exact ih (revStep cfg st b) a h

/-- C9: in the revision pass duplicate tags are last-write-wins — the recorded
sub-field value is the last matching attribute's — while the score counts
every matching attribute (one point per attribute, duplicates included). -/
theorem c9_revision_last_write_spec (cfg : NormCfg) :
    (∀ (attrs : List Attr),
        (analyze_block cfg attrs).score =
          (aliasPass cfg (pass1 cfg attrs initPass1) attrs).score +
            (attrs.countP (revMatches cfg) : Int))
    ∧ (∀ (attrs : List Attr) (idx : Nat) (kind : RevKind) (a : Attr),
        (attrs.filter (revWritesAt cfg idx kind)).getLast? = some a →
        revKindLookup (analyze_block cfg attrs).revs idx kind = some a.value) := by
  constructor
  · intro attrs
    show (attrs.foldl (revStep cfg)
        ((aliasPass cfg (pass1 cfg attrs initPass1) attrs).score, [])).1 = _
    rw [revFold_score]
  · intro attrs idx kind a h
    show revKindLookup (attrs.foldl (revStep cfg)
        ((aliasPass cfg (pass1 cfg attrs initPass1) attrs).score, [])).2 idx kind = _
    exact revFold_last_write cfg idx kind attrs _ a h

/-- C9 witness: two attributes both tagged `R0NO` — the later value "B"
survives in `revisions[0].NO`, while the block's score still counts both. -/
theorem c9_revision_last_write_witness :
    ([mkAttr "R0NO" "" "A", mkAttr "R0NO" "" "B"].filter
        (revWritesAt cfgA 0 RevKind.NO)).getLast? = some (mkAttr "R0NO" "" "B") ∧
    revKindLookup
        (analyze_block cfgA [mkAttr "R0NO" "" "A", mkAttr "R0NO" "" "B"]).revs
        0 RevKind.NO = some "B" ∧
    (analyze_block cfgA [mkAttr "R0NO" "" "A", mkAttr "R0NO" "" "B"]).score = 2 := by
  refine ⟨by decide, ?_, by decide⟩
  exact (c9_revision_last_write_spec cfgA).2 [mkAttr "R0NO" "" "A", mkAttr "R0NO" "" "B"]
    0 RevKind.NO (mkAttr "R0NO" "" "B") (by decide)

/-- C10: an empty-string `sheetNumberSeparator` or `titleJoiner`, an empty
`revisionIndexRange`, and an empty `targetBlockNames` set are silently
replaced by the built-in defaults ("-", " ", indices 0-9, and no name
filtering) through the falsy-`or` reads, so a configured empty separator or
joiner can never reach the output. -/
theorem c10_falsy_defaults_spec (cfg : MatchConfig) (cands : List Candidate) :
    read_titleblock_from_active_layout_robust { cfg with sheetno_separator := "" } cands =
      read_titleblock_from_active_layout_robust { cfg with sheetno_separator := "-" } cands
    ∧ read_titleblock_from_active_layout_robust { cfg with title_joiner := "" } cands =
      read_titleblock_from_active_layout_robust { cfg with title_joiner := " " } cands
    ∧ read_titleblock_from_active_layout_robust { cfg with revision_index_range := [] } cands =
      read_titleblock_from_active_layout_robust
        { cfg with revision_index_range := List.range 10 } cands
    ∧ normalizeCfg { cfg with target_block_names := [] } =
      { normalizeCfg cfg with tb_names := none }
    ∧ (normalizeCfg cfg).sheetno_sep ≠ ""
    ∧ (normalizeCfg cfg).title_joiner ≠ "" := by
  refine ⟨rfl, rfl, rfl, rfl, ?_, ?_⟩
  · by_cases h : cfg.sheetno_separator = "" <;> simp [normalizeCfg, h]
  · by_cases h : cfg.title_joiner = "" <;> simp [normalizeCfg, h]

/-- C10 witness: with a concrete configuration and candidate, the
empty-separator scan equals the default-separator scan, and the composed
sheet number uses "-". -/
theorem c10_falsy_defaults_witness :
    read_titleblock_from_active_layout_robust { cfgM with sheetno_separator := "" } [candTop] =
      read_titleblock_from_active_layout_robust { cfgM with sheetno_separator := "-" } [candTop] ∧
    (read_titleblock_from_active_layout_robust
        { cfgM with sheetno_separator := "" } [candTop]).sheet_no = "FA-205" := by
  exact ⟨(c10_falsy_defaults_spec cfgM [candTop]).1, by decide⟩

end DwgPdf
